import Mathlib

/-!
Verification of the node server of a replicated file-audit ledger
(`src/server.cpp`).  Handlers are embedded as pure Lean functions over
explicit state; the SHA-256 digest and the RSA signature verifier are
treated as function parameters (oracles), since their behaviour is
cryptographic and lives outside the file under study.  Components whose
source is not provided (merkle engine, mempool manager, chain manager,
heartbeat table) are modelled from the specification and are marked as
such in their doc comments.
-/

namespace BlockchainAudit

structure FileInfo where
  file_id : String
  file_name : String
deriving DecidableEq, Repr

structure UserInfo where
  user_id : String
  user_name : String
deriving DecidableEq, Repr

structure FileAudit where
  req_id : String
  timestamp : Int
  access_type : String
  file_info : FileInfo
  user_info : UserInfo
  signature : String
  public_key : String
deriving DecidableEq, Repr

/-- Lowercase hex digit, as printed by nlohmann::json's `\uXXXX` escapes. -/
def hexDigit (n : Nat) : Char :=
  if n < 10 then Char.ofNat (48 + n) else Char.ofNat (87 + n)

/-- One character of nlohmann::json's `dump()` string escaping:
`"` and `\` are backslash-escaped, the usual control shorthands are used,
other control characters become `\u00XX`, everything else passes through. -/
def jsonEscapeChar (c : Char) : String :=
  if c = '\x22' then "\\\x22"
  else if c = '\\' then "\\\\"
  else if c = '\x08' then "\\b"
  else if c = '\x0c' then "\\f"
  else if c = '\n' then "\\n"
  else if c = '\r' then "\\r"
  else if c = '\t' then "\\t"
  else if c.toNat < 32 then
    "\\u00" ++ String.mk [hexDigit (c.toNat / 16), hexDigit (c.toNat % 16)]
  else String.singleton c

def jsonEscape (s : String) : String :=
  String.join (s.data.map jsonEscapeChar)

/-- A JSON string literal: quoted, escaped. -/
def jsonString (s : String) : String :=
  "\x22" ++ jsonEscape s ++ "\x22"

/-- `nlohmann::ordered_json::dump()` of an object: the members in
insertion order, rendered with no insignificant whitespace. -/
def jsonObject (kvs : List (String × String)) : String :=
  "\x7b" ++
    String.intercalate "," (kvs.map (fun kv => jsonString kv.fst ++ ":" ++ kv.snd)) ++
  "\x7d"

/-- The canonical payload built in `FileAuditServiceImpl::SubmitAudit`
(server.cpp lines 113-121): an `ordered_json` with keys inserted in the
order `access_type`, `file_info`, `req_id`, `timestamp`, `user_info`,
nested objects `{file_id,file_name}` and `{user_id,user_name}`, dumped
with no whitespace. -/
def submitPayload (a : FileAudit) : String :=
  jsonObject
    [("access_type", jsonString a.access_type),
     ("file_info", jsonObject
        [("file_id", jsonString a.file_info.file_id),
         ("file_name", jsonString a.file_info.file_name)]),
     ("req_id", jsonString a.req_id),
     ("timestamp", toString a.timestamp),
     ("user_info", jsonObject
        [("user_id", jsonString a.user_info.user_id),
         ("user_name", jsonString a.user_info.user_name)])]

/-- The canonical payload built in
`BlockChainServiceImpl::WhisperAuditRequest` (server.cpp lines 200-208),
with the same keys inserted in the same order. -/
def whisperPayload (a : FileAudit) : String :=
  jsonObject
    [("access_type", jsonString a.access_type),
     ("file_info", jsonObject
        [("file_id", jsonString a.file_info.file_id),
         ("file_name", jsonString a.file_info.file_name)]),
     ("req_id", jsonString a.req_id),
     ("timestamp", toString a.timestamp),
     ("user_info", jsonObject
        [("user_id", jsonString a.user_info.user_id),
         ("user_name", jsonString a.user_info.user_name)])]

/-- The canonical Merkle-leaf payload built in
`BlockChainServiceImpl::ProposeBlock` (server.cpp lines 245-257), again
with the same keys inserted in the same order. -/
def proposeLeafPayload (a : FileAudit) : String :=
  jsonObject
    [("access_type", jsonString a.access_type),
     ("file_info", jsonObject
        [("file_id", jsonString a.file_info.file_id),
         ("file_name", jsonString a.file_info.file_name)]),
     ("req_id", jsonString a.req_id),
     ("timestamp", toString a.timestamp),
     ("user_info", jsonObject
        [("user_id", jsonString a.user_info.user_id),
         ("user_name", jsonString a.user_info.user_name)])]

/-- Insert a member into a key-sorted member list, keeping the keys in
lexicographic order. -/
def insertSorted (kv : String × String) : List (String × String) → List (String × String)
  | [] => [kv]
  | x :: xs => if kv.fst ≤ x.fst then kv :: x :: xs else x :: insertSorted kv xs

/-- Key-sorting step of the spec's canonical form (§4.1): render the
object with its keys in lexicographic order. -/
def sortByKey (kvs : List (String × String)) : List (String × String) :=
  kvs.foldr insertSorted []

/-- The canonical encoding as the spec words it (§4.1): a JSON object
with exactly the top-level keys `access_type`, `file_info`, `req_id`,
`timestamp`, `user_info` in lexicographic order, nested objects also
key-sorted, UTF-8, no insignificant whitespace, `signature` and
`public_key` excluded. -/
def specCanonicalAudit (a : FileAudit) : String :=
  jsonObject (sortByKey
    [("access_type", jsonString a.access_type),
     ("file_info", jsonObject (sortByKey
        [("file_id", jsonString a.file_info.file_id),
         ("file_name", jsonString a.file_info.file_name)])),
     ("req_id", jsonString a.req_id),
     ("timestamp", toString a.timestamp),
     ("user_info", jsonObject (sortByKey
        [("user_id", jsonString a.user_info.user_id),
         ("user_name", jsonString a.user_info.user_name)]))])

/-- Modelled from the spec: `merkle_tree.h` / `merkle_tree.cpp` are not
among the provided sources.  One pairing pass of §4.3: adjacent leaves
left-to-right, hex digests concatenated as text and hashed; an odd last
element is duplicated. -/
def merkleLevel (sha : String → String) : List String → List String
  | [] => []
  | [x] => [sha (x ++ x)]
  | x :: y :: rest => sha (x ++ y) :: merkleLevel sha rest

theorem merkleLevel_length (sha : String → String) :
    ∀ l : List String, (merkleLevel sha l).length = (l.length + 1) / 2
  | [] => by simp [merkleLevel]
  | [_] => by simp [merkleLevel]
  | _ :: _ :: rest => by
    simp only [merkleLevel, List.length_cons, merkleLevel_length sha rest]
    omega

/-- Modelled from the spec: `ComputeMerkleRoot` (§4.3) — empty list maps
to the digest of the empty string, a single leaf is returned as is,
otherwise pairing passes repeat until one value remains. -/
def ComputeMerkleRoot (sha : String → String) : List String → String
  | [] => sha ""
  | [x] => x
  | x :: y :: rest => ComputeMerkleRoot sha (merkleLevel sha (x :: y :: rest))
termination_by l => l.length
decreasing_by
  simp only [merkleLevel_length, List.length_cons]
  omega

structure BlockMsg where
  id : Int
  hash : String
  previous_hash : String
  merkle_root : String
  audits : List FileAudit
deriving DecidableEq, Repr

structure BlockMeta where
  id : Int
  hash : String
  previous_hash : String
  merkle_root : String
deriving DecidableEq, Repr

/-- Modelled from the spec: `ChainManager::getLastHash` (§4.5, §3) —
the hash of the entry with the greatest id, or the genesis constant when
the index is empty.  The index is kept as the list of appended entries
in order. -/
def getLastHash (genesis : String) (chain : List BlockMeta) : String :=
  match chain.getLast? with
  | none => genesis
  | some m => m.hash

/-- Modelled from the spec: `ChainManager::getLastID` (§4.5, §3) — ids
are contiguous from 0, so the empty index answers -1. -/
def getLastID (chain : List BlockMeta) : Int :=
  match chain.getLast? with
  | none => -1
  | some m => m.id

/-- Modelled from the spec: `ChainManager::append` (§4.5) — appends to
the index; fails with `ChainBroken` (here `none`) if the incoming
`previous_hash` differs from `getLastHash()` or the id differs from
`getLastID()+1`. -/
def chainAppend (genesis : String) (chain : List BlockMeta) (m : BlockMeta) :
    Option (List BlockMeta) :=
  if m.previous_hash = getLastHash genesis chain ∧ m.id = getLastID chain + 1 then
    some (chain ++ [m])
  else none

/-- Modelled from the spec: `MempoolManager::Append` (§4.4) — inserts by
`req_id`; a second append with the same `req_id` is a no-op. -/
def mempoolAppend (pool : List FileAudit) (a : FileAudit) : List FileAudit :=
  if pool.any (fun x => x.req_id = a.req_id) then pool else pool ++ [a]

/-- Modelled from the spec: `MempoolManager::RemoveBatch` (§4.4) —
atomic bulk removal by request id. -/
def removeBatch (pool : List FileAudit) (ids : List String) : List FileAudit :=
  pool.filter (fun x => !(ids.contains x.req_id))

structure BlockVoteResponse where
  vote : Bool
  status : String
  error_message : String
deriving DecidableEq, Repr

/-- `BlockChainServiceImpl::ProposeBlock` (server.cpp lines 237-314):
recompute the Merkle root from the canonical leaf payloads and compare,
then compare `previous_hash` with the chain head, else vote yes.
`sha` stands for `SHA256Hex`; `lastHash` for `chain_.getLastHash()`. -/
def ProposeBlock (sha : String → String) (lastHash : String) (blk : BlockMsg) :
    BlockVoteResponse :=
  let leafs := blk.audits.map (fun a => sha (proposeLeafPayload a))
  if ComputeMerkleRoot sha leafs ≠ blk.merkle_root then
    ⟨false, "failure", "bad merkle_root"⟩
  else if blk.previous_hash ≠ lastHash then
    ⟨false, "failure", "bad previous_hash"⟩
  else
    ⟨true, "success", ""⟩

structure NodeState where
  chain : List BlockMeta
  mempool : List FileAudit
deriving DecidableEq, Repr

structure BlockCommitResponse where
  status : String
  error_message : String
deriving DecidableEq, Repr

/-- `BlockChainServiceImpl::CommitBlock` (server.cpp lines 316-385):
build a `BlockMeta`, call `chain_.append(meta)` — whose outcome the
source IGNORES — then prune the mempool by the block's request ids, then
write the block body file; only a body-write failure produces a failure
response.  `writeOk` stands for the success of the `std::ofstream`
write. -/
def CommitBlock (genesis : String) (writeOk : Bool) (st : NodeState)
    (blk : BlockMsg) : NodeState × BlockCommitResponse :=
  let meta : BlockMeta := ⟨blk.id, blk.hash, blk.previous_hash, blk.merkle_root⟩
  let chain1 :=
    match chainAppend genesis st.chain meta with
    | some c => c
    | none => st.chain
  let ids := blk.audits.map (fun a => a.req_id)
  let pool1 := removeBatch st.mempool ids
  if writeOk then
    (⟨chain1, pool1⟩, ⟨"success", ""⟩)
  else
    (⟨chain1, pool1⟩, ⟨"failure", "could not write block file"⟩)

inductive RpcStatus where
  | ok
  | invalidArgument (msg : String)
deriving DecidableEq, Repr

/-- Outcome of one outbound gossip call, as distinguished by the source's
logging branch (server.cpp lines 148-159). -/
inductive GossipOutcome where
  | succeeded (statusMsg : String)
  | deadlineExceeded
  | failed (msg : String)
deriving DecidableEq, Repr

/-- The log line the gossip loop emits for one peer call
(server.cpp lines 148-159). -/
def gossipLogLine : GossipOutcome → String
  | .deadlineExceeded => "[Gossip] to peer timed out after 200ms"
  | .failed msg => "[Gossip] to peer failed: " ++ msg
  | .succeeded st => "[Gossip] to peer succeeded: " ++ st

structure FileAuditResponse where
  req_id : String
  status : String
deriving DecidableEq, Repr

structure SubmitResult where
  mempool : List FileAudit
  rpc : RpcStatus
  response : Option FileAuditResponse
  gossipCalls : List (String × FileAudit)
  gossipLog : List String
deriving DecidableEq, Repr

/-- `FileAuditServiceImpl::SubmitAudit` (server.cpp lines 100-166):
verify the client signature over the canonical payload; on failure
return `InvalidArgument("Invalid client signature")` without touching
the mempool; otherwise append to the mempool, whisper the audit to every
peer (logging but otherwise ignoring each call's outcome), and answer
the client with `{req_id, "success"}`.  `verify` stands for
`VerifySignature`; `outcome` gives each peer call's result. -/
def SubmitAudit (verify : String → String → String → Bool)
    (peers : List String) (outcome : String → GossipOutcome)
    (pool : List FileAudit) (a : FileAudit) : SubmitResult :=
  if !(verify (submitPayload a) a.signature a.public_key) then
    ⟨pool, .invalidArgument "Invalid client signature", none, [], []⟩
  else
    ⟨mempoolAppend pool a, .ok, some ⟨a.req_id, "success"⟩,
     peers.map (fun p => (p, a)),
     peers.map (fun p => gossipLogLine (outcome p))⟩

structure WhisperResult where
  mempool : List FileAudit
  rpc : RpcStatus
  response : Option String
  gossipCalls : List (String × FileAudit)
deriving DecidableEq, Repr

/-- `BlockChainServiceImpl::WhisperAuditRequest` (server.cpp lines
184-235): verify the signature over the canonical payload; on failure
return `InvalidArgument("Invalid signature in gossiped audit")` leaving
the mempool alone; otherwise append to the mempool and ack `"success"`.
The handler makes no outbound calls, which `gossipCalls` records. -/
def WhisperAuditRequest (verify : String → String → String → Bool)
    (pool : List FileAudit) (a : FileAudit) : WhisperResult :=
  if !(verify (whisperPayload a) a.signature a.public_key) then
    ⟨pool, .invalidArgument "Invalid signature in gossiped audit", none, []⟩
  else
    ⟨mempoolAppend pool a, .ok, some "success", []⟩

structure HeartbeatEntry where
  from_address : String
  current_leader_address : String
  latest_block_id : Int
  mem_pool_size : Int
deriving DecidableEq, Repr

/-- Candidate stats lookup in `TriggerElection` (server.cpp lines
464-472): scan the heartbeat table for the first entry matching the
candidate address; default to `(0, 0)` when absent. -/
def candStats (tbl : List HeartbeatEntry) (cand : String) : Int × Int :=
  match tbl.find? (fun e => e.from_address == cand) with
  | some e => (e.latest_block_id, e.mem_pool_size)
  | none => (0, 0)

structure TriggerElectionResponse where
  vote : Bool
  term : Int
  status : String
deriving DecidableEq, Repr

/-- `BlockChainServiceImpl::TriggerElection` (server.cpp lines 457-492):
compare the candidate's heartbeat stats against our own
`(chain_.getLastID(), mempool_->LoadAll().size())`; vote yes iff the
candidate has more blocks, or an equal chain and a bigger pool, or all
equal and a lexicographically greater address; set `voted_for` exactly
when voting yes; `term` is always 0.  Returns the new `voted_for`
alongside the response. -/
def TriggerElection (tbl : List HeartbeatEntry) (chain : List BlockMeta)
    (pool : List FileAudit) (selfAddr votedFor cand : String) :
    String × TriggerElectionResponse :=
  let cb := (candStats tbl cand).1
  let cp := (candStats tbl cand).2
  let myBlocks := getLastID chain
  let myPool : Int := pool.length
  if cb > myBlocks ∨ (cb = myBlocks ∧ cp > myPool) ∨
      (cb = myBlocks ∧ cp = myPool ∧ selfAddr < cand) then
    (cand, ⟨true, 0, "success"⟩)
  else
    (votedFor, ⟨false, 0, "success"⟩)

structure GetBlockResponse where
  status : String
  error_message : String
  block : Option BlockMsg
deriving DecidableEq, Repr

/-- `BlockChainServiceImpl::GetBlock` (server.cpp lines 387-424): reject
only ids strictly greater than `chain_.getLastID()`; otherwise open
`blocks/block_<id>.json` (`readF`, `none` when the file cannot be
opened), parse it back into a block (`parse`), and return it. -/
def GetBlock (lastID : Int) (readF : Int → Option String)
    (parse : String → Except String BlockMsg) (id : Int) : GetBlockResponse :=
  if id > lastID then
    ⟨"failure", "block id out of range", none⟩
  else
    match readF id with
    | none => ⟨"failure", "could not open block file", none⟩
    | some s =>
      match parse s with
      | .error e => ⟨"failure", "JSON parse error: " ++ e, none⟩
      | .ok b => ⟨"success", "", some b⟩

/-! ### Concrete fixtures used by witnesses -/

/-- A sample audit (the literal values of scenario S1 in the spec). -/
def audit0 : FileAudit :=
  ⟨"r1", 1, "read", ⟨"f1", "a.txt"⟩, ⟨"u1", "alice"⟩, "sig", "pk"⟩

/-- A concrete stand-in for the SHA-256 hex oracle, used only to
instantiate witnesses. -/
def sha0 (s : String) : String := "h(" ++ s ++ ")"

/-- A block over `audit0` whose Merkle root is the recomputed one and
whose `previous_hash` is the head hash `"G"`. -/
def goodBlock : BlockMsg :=
  { id := 0, hash := "bh", previous_hash := "G",
    merkle_root :=
      ComputeMerkleRoot sha0 ([audit0].map (fun a => sha0 (proposeLeafPayload a))),
    audits := [audit0] }

/-- A block that extends the empty chain with genesis hash `"G"`. -/
def extendingBlock : BlockMsg :=
  { id := 0, hash := "bh", previous_hash := "G", merkle_root := "m",
    audits := [audit0] }

/-- A block that does NOT extend the empty chain with genesis hash
`"G"`: wrong `previous_hash` and wrong id. -/
def badBlock : BlockMsg :=
  { id := 5, hash := "bh", previous_hash := "X", merkle_root := "m",
    audits := [audit0] }

/-! ### Helper lemmas -/

theorem removeBatch_not_mem (pool : List FileAudit) (ids : List String)
    (r : String) (hr : r ∈ ids) :
    ∀ x ∈ removeBatch pool ids, x.req_id ≠ r := by
  intro x hx he
  rw [removeBatch, List.mem_filter] at hx
  have h2 := hx.2
  simp at h2
  exact h2 (he ▸ hr)

theorem commitBlock_mempool (genesis : String) (writeOk : Bool)
    (st : NodeState) (blk : BlockMsg) :
    (CommitBlock genesis writeOk st blk).1.mempool =
      removeBatch st.mempool (blk.audits.map (fun a => a.req_id)) := by
  unfold CommitBlock
  cases writeOk <;> simp

/-! ### Claims -/

/-- C1: `ProposeBlock` votes no with `"bad merkle_root"` when the Merkle
root recomputed from the canonical leaf payloads of `audits[]` differs
from `block.merkle_root`; otherwise votes no with `"bad previous_hash"`
when `block.previous_hash` differs from the chain head hash; otherwise
votes yes with status `"success"`. -/
theorem proposeBlock_validates (sha : String → String) (lastHash : String)
    (blk : BlockMsg) :
    (ComputeMerkleRoot sha (blk.audits.map (fun a => sha (proposeLeafPayload a))) ≠
        blk.merkle_root →
      ProposeBlock sha lastHash blk = ⟨false, "failure", "bad merkle_root"⟩) ∧
    (ComputeMerkleRoot sha (blk.audits.map (fun a => sha (proposeLeafPayload a))) =
        blk.merkle_root →
      blk.previous_hash ≠ lastHash →
      ProposeBlock sha lastHash blk = ⟨false, "failure", "bad previous_hash"⟩) ∧
    (ComputeMerkleRoot sha (blk.audits.map (fun a => sha (proposeLeafPayload a))) =
        blk.merkle_root →
      blk.previous_hash = lastHash →
      (ProposeBlock sha lastHash blk).vote = true ∧
      (ProposeBlock sha lastHash blk).status = "success") := by
  refine ⟨fun h1 => ?_, fun h1 h2 => ?_, fun h1 h2 => ?_⟩
  · simp [ProposeBlock, h1]
  · simp [ProposeBlock, h1, h2]
  · simp [ProposeBlock, h1, h2]

/-- Witness for C1: the success branch on a concrete well-formed block. -/
theorem proposeBlock_validates_witness :
    (ProposeBlock sha0 "G" goodBlock).vote = true ∧
    (ProposeBlock sha0 "G" goodBlock).status = "success" :=
  (proposeBlock_validates sha0 "G" goodBlock).2.2 rfl rfl

/-- C2 counterexample evidence: `badBlock` does not extend the empty
chain (its `previous_hash` is not the genesis head `"G"` and its id is
not `getLastID+1`), so the modelled `chainAppend` rejects it — yet
`CommitBlock` answers `status="success"` because the source ignores the
outcome of `chain_.append` (server.cpp line 352). -/
theorem commitBlock_ignores_append_rejection :
    chainAppend "G" ([] : List BlockMeta)
        ⟨badBlock.id, badBlock.hash, badBlock.previous_hash, badBlock.merkle_root⟩ =
      none ∧
    (CommitBlock "G" true ⟨[], []⟩ badBlock).2 =
      ⟨"success", ""⟩ := by
  constructor
  · decide
  · decide

/-- C3: when the body-file write fails, `CommitBlock` answers
`status="failure"`, `error_message="could not write block file"`, and at
that point the chain index entry has already been appended (for a block
that extends the head) and every audit of the block has already been
removed from the mempool — neither change is rolled back. -/
theorem commitBlock_write_failure_no_rollback (genesis : String)
    (st : NodeState) (blk : BlockMsg)
    (hprev : blk.previous_hash = getLastHash genesis st.chain)
    (hid : blk.id = getLastID st.chain + 1) :
    (CommitBlock genesis false st blk).2 =
      ⟨"failure", "could not write block file"⟩ ∧
    (CommitBlock genesis false st blk).1.chain =
      st.chain ++ [⟨blk.id, blk.hash, blk.previous_hash, blk.merkle_root⟩] ∧
    ∀ a ∈ blk.audits, ∀ x ∈ (CommitBlock genesis false st blk).1.mempool,
      x.req_id ≠ a.req_id := by
  refine ⟨?_, ?_, ?_⟩
  · simp [CommitBlock]
  · simp [CommitBlock, chainAppend, hprev, hid]
  · intro a ha x hx
    have hm := commitBlock_mempool genesis false st blk
    refine removeBatch_not_mem st.mempool (blk.audits.map (fun b => b.req_id))
      a.req_id ?_ x (hm ▸ hx)
    exact List.mem_map_of_mem (fun b => b.req_id) ha

/-- Witness for C3: a concrete extending block, failing write. -/
theorem commitBlock_write_failure_no_rollback_witness :
    (CommitBlock "G" false ⟨[], [audit0]⟩ extendingBlock).2 =
      ⟨"failure", "could not write block file"⟩ ∧
    (CommitBlock "G" false ⟨[], [audit0]⟩ extendingBlock).1.chain =
      [⟨extendingBlock.id, extendingBlock.hash, extendingBlock.previous_hash,
        extendingBlock.merkle_root⟩] := by
  have h := commitBlock_write_failure_no_rollback "G" ⟨[], [audit0]⟩
    extendingBlock rfl rfl
  exact ⟨h.1, h.2.1⟩

/-- C9: after a `CommitBlock(B)` that answers `"success"`, no audit of
`B` remains in the mempool: every surviving entry's `req_id` differs
from every `req_id` occurring in `B.audits`. -/
theorem commitBlock_prunes_mempool (genesis : String) (writeOk : Bool)
    (st : NodeState) (blk : BlockMsg)
    (_hok : (CommitBlock genesis writeOk st blk).2.status = "success") :
    ∀ a ∈ blk.audits, ∀ x ∈ (CommitBlock genesis writeOk st blk).1.mempool,
      x.req_id ≠ a.req_id := by
  intro a ha x hx
  have hm := commitBlock_mempool genesis writeOk st blk
  refine removeBatch_not_mem st.mempool (blk.audits.map (fun b => b.req_id))
    a.req_id ?_ x (hm ▸ hx)
  exact List.mem_map_of_mem (fun b => b.req_id) ha

/-- Witness for C9: a concrete committed block whose audit disappears
from the mempool. -/
theorem commitBlock_prunes_mempool_witness :
    (CommitBlock "G" true ⟨[], [audit0]⟩ extendingBlock).2.status = "success" ∧
    ∀ x ∈ (CommitBlock "G" true ⟨[], [audit0]⟩ extendingBlock).1.mempool,
      x.req_id ≠ "r1" := by
  refine ⟨rfl, fun x hx => ?_⟩
  exact commitBlock_prunes_mempool "G" true ⟨[], [audit0]⟩ extendingBlock rfl
    audit0 (by decide) x hx

/-- C4: a submit whose signature does not verify is answered with
`InvalidArgument("Invalid client signature")` and leaves the mempool
unchanged (no response body, no gossip). -/
theorem submitAudit_rejects_bad_signature
    (verify : String → String → String → Bool) (peers : List String)
    (outcome : String → GossipOutcome) (pool : List FileAudit) (a : FileAudit)
    (h : verify (submitPayload a) a.signature a.public_key = false) :
    SubmitAudit verify peers outcome pool a =
      ⟨pool, .invalidArgument "Invalid client signature", none, [], []⟩ := by
  simp [SubmitAudit, h]

/-- Witness for C4: an always-rejecting verifier on a concrete audit. -/
theorem submitAudit_rejects_bad_signature_witness :
    SubmitAudit (fun _ _ _ => false) ["peerA"] (fun _ => .deadlineExceeded)
        [] audit0 =
      ⟨[], .invalidArgument "Invalid client signature", none, [], []⟩ :=
  submitAudit_rejects_bad_signature (fun _ _ _ => false) ["peerA"]
    (fun _ => .deadlineExceeded) [] audit0 rfl

/-- C5: once the signature verifies, the client's response is
`{req_id, "success"}` with an OK transport status, and neither the
response, the status nor the mempool depends on the outcomes of the
gossip calls to peers. -/
theorem submitAudit_gossip_immaterial
    (verify : String → String → String → Bool) (peers : List String)
    (pool : List FileAudit) (a : FileAudit)
    (h : verify (submitPayload a) a.signature a.public_key = true)
    (outcome1 outcome2 : String → GossipOutcome) :
    (SubmitAudit verify peers outcome1 pool a).response =
      some ⟨a.req_id, "success"⟩ ∧
    (SubmitAudit verify peers outcome1 pool a).rpc = .ok ∧
    (SubmitAudit verify peers outcome1 pool a).response =
      (SubmitAudit verify peers outcome2 pool a).response ∧
    (SubmitAudit verify peers outcome1 pool a).rpc =
      (SubmitAudit verify peers outcome2 pool a).rpc ∧
    (SubmitAudit verify peers outcome1 pool a).mempool =
      (SubmitAudit verify peers outcome2 pool a).mempool := by
  simp [SubmitAudit, h]

/-- Witness for C5: a timing-out peer versus a succeeding peer give the
same client response. -/
theorem submitAudit_gossip_immaterial_witness :
    (SubmitAudit (fun _ _ _ => true) ["peerA"] (fun _ => .deadlineExceeded)
        [] audit0).response = some ⟨"r1", "success"⟩ ∧
    (SubmitAudit (fun _ _ _ => true) ["peerA"] (fun _ => .deadlineExceeded)
        [] audit0).mempool =
      (SubmitAudit (fun _ _ _ => true) ["peerA"]
        (fun _ => .succeeded "success") [] audit0).mempool := by
  have h := submitAudit_gossip_immaterial (fun _ _ _ => true) ["peerA"] []
    audit0 rfl (fun _ => .deadlineExceeded) (fun _ => .succeeded "success")
  exact ⟨h.1, h.2.2.2.2⟩

/-- C6: `TriggerElection` votes yes exactly when the candidate's
heartbeat stats beat the voter's `(getLastID, mempool size)` in the
blocks / pool / address lexicographic priority; `voted_for` becomes the
candidate exactly on a yes vote (and is untouched otherwise); the
response's term is always 0 and its status `"success"`. -/
theorem triggerElection_vote_rule (tbl : List HeartbeatEntry)
    (chain : List BlockMeta) (pool : List FileAudit)
    (selfAddr votedFor cand : String) :
    ((TriggerElection tbl chain pool selfAddr votedFor cand).2.vote = true ↔
      ((candStats tbl cand).1 > getLastID chain ∨
       ((candStats tbl cand).1 = getLastID chain ∧
        (candStats tbl cand).2 > (pool.length : Int)) ∨
       ((candStats tbl cand).1 = getLastID chain ∧
        (candStats tbl cand).2 = (pool.length : Int) ∧ selfAddr < cand))) ∧
    ((TriggerElection tbl chain pool selfAddr votedFor cand).2.vote = true →
      (TriggerElection tbl chain pool selfAddr votedFor cand).1 = cand) ∧
    ((TriggerElection tbl chain pool selfAddr votedFor cand).2.vote = false →
      (TriggerElection tbl chain pool selfAddr votedFor cand).1 = votedFor) ∧
    (TriggerElection tbl chain pool selfAddr votedFor cand).2.term = 0 ∧
    (TriggerElection tbl chain pool selfAddr votedFor cand).2.status =
      "success" := by
  unfold TriggerElection
  dsimp only
  split_ifs with h <;> simp_all

/-- A one-entry heartbeat table for the election witness. -/
def hbtbl0 : List HeartbeatEntry := [⟨"nodeB", "", 1, 0⟩]

/-- Witness for C6: a candidate one block ahead of an empty voter gets a
yes vote and is recorded as `voted_for`. -/
theorem triggerElection_vote_rule_witness :
    (TriggerElection hbtbl0 [] [] "nodeA" "" "nodeB").1 = "nodeB" ∧
    (TriggerElection hbtbl0 [] [] "nodeA" "" "nodeB").2.term = 0 := by
  have h := triggerElection_vote_rule hbtbl0 [] [] "nodeA" "" "nodeB"
  exact ⟨h.2.1 (by decide), h.2.2.2.1⟩

/-- C7: `WhisperAuditRequest` makes no outbound gossip calls; on a
verified signature its only state effect is the mempool append, answered
`"success"`; on a failed signature it answers `InvalidArgument` and
leaves the mempool unchanged. -/
theorem whisper_no_regossip (verify : String → String → String → Bool)
    (pool : List FileAudit) (a : FileAudit) :
    (WhisperAuditRequest verify pool a).gossipCalls = [] ∧
    (verify (whisperPayload a) a.signature a.public_key = true →
      WhisperAuditRequest verify pool a =
        ⟨mempoolAppend pool a, .ok, some "success", []⟩) ∧
    (verify (whisperPayload a) a.signature a.public_key = false →
      WhisperAuditRequest verify pool a =
        ⟨pool, .invalidArgument "Invalid signature in gossiped audit",
          none, []⟩) := by
  refine ⟨?_, fun h => ?_, fun h => ?_⟩
  · unfold WhisperAuditRequest
    split <;> rfl
  · simp [WhisperAuditRequest, h]
  · simp [WhisperAuditRequest, h]

/-- Witness for C7: an always-accepting verifier on a concrete audit. -/
theorem whisper_no_regossip_witness :
    (WhisperAuditRequest (fun _ _ _ => true) [] audit0).gossipCalls = [] ∧
    WhisperAuditRequest (fun _ _ _ => true) [] audit0 =
      ⟨mempoolAppend [] audit0, .ok, some "success", []⟩ := by
  have h := whisper_no_regossip (fun _ _ _ => true) [] audit0
  exact ⟨h.1, h.2.1 rfl⟩

theorem sortFileInfoKeys (v1 v2 : String) :
    sortByKey [("file_id", v1), ("file_name", v2)] =
      [("file_id", v1), ("file_name", v2)] := by
  simp [sortByKey, insertSorted]
  decide

theorem sortUserInfoKeys (v1 v2 : String) :
    sortByKey [("user_id", v1), ("user_name", v2)] =
      [("user_id", v1), ("user_name", v2)] := by
  simp [sortByKey, insertSorted]
  decide

theorem sortTopKeys (v1 v2 v3 v4 v5 : String) :
    sortByKey [("access_type", v1), ("file_info", v2), ("req_id", v3),
        ("timestamp", v4), ("user_info", v5)] =
      [("access_type", v1), ("file_info", v2), ("req_id", v3),
        ("timestamp", v4), ("user_info", v5)] := by
  simp [sortByKey, insertSorted]
  decide

/-- C8: the byte string signed in `SubmitAudit`, the one verified in
`WhisperAuditRequest` and the one hashed as the Merkle leaf in
`ProposeBlock` are all the same string, and that string is exactly the
spec's canonical form: a whitespace-free JSON object over the five
signed fields with all keys in lexicographic order and
`signature`/`public_key` excluded. -/
theorem canonical_payload_agreement (a : FileAudit) :
    submitPayload a = proposeLeafPayload a ∧
    whisperPayload a = proposeLeafPayload a ∧
    submitPayload a = specCanonicalAudit a := by
  refine ⟨rfl, rfl, ?_⟩
  unfold specCanonicalAudit submitPayload
  rw [sortFileInfoKeys, sortUserInfoKeys, sortTopKeys]

theorem parse_error_msg_ne (e : String) :
    "JSON parse error: " ++ e ≠ "block id out of range" := by
  intro h
  have h2 := congrArg String.data h
  simp [String.data_append] at h2

/-- C10: a strictly negative id passes `GetBlock`'s bounds check (which
rejects only ids above `getLastID`), so the answer is never
`"block id out of range"`; with no block file for that id the answer is
`"could not open block file"`.  `getLastID` is at least -1 because the
index holds ids contiguous from 0. -/
theorem getBlock_negative_id (lastID : Int) (readF : Int → Option String)
    (parse : String → Except String BlockMsg) (id : Int)
    (hneg : id < 0) (hlast : -1 ≤ lastID) :
    (GetBlock lastID readF parse id).error_message ≠ "block id out of range" ∧
    (readF id = none →
      GetBlock lastID readF parse id =
        ⟨"failure", "could not open block file", none⟩) := by
  have hle : ¬ id > lastID := by omega
  constructor
  · unfold GetBlock
    rw [if_neg hle]
    cases hf : readF id with
    | none => simp
    | some s =>
      cases hp : parse s with
      | error e =>
        dsimp only
        rw [hp]
        simpa using parse_error_msg_ne e
      | ok b =>
        dsimp only
        rw [hp]
        simp
  · intro hf
    simp [GetBlock, hle, hf]

/-- Witness for C10: id -2 against a chain head at id 3 and a missing
block file. -/
theorem getBlock_negative_id_witness :
    GetBlock 3 (fun _ => none) (fun _ => Except.error "x") (-2) =
      ⟨"failure", "could not open block file", none⟩ := by
  have h := getBlock_negative_id 3 (fun _ => none)
    (fun _ => Except.error "x") (-2) (by decide) (by decide)
  exact h.2 rfl

end BlockchainAudit
